import Mathlib

/-! rest-api-sample: the user repository and the request handlers.

A shallow embedding of `pkg/service/v1/users.go` (the user repository) and of the
handlers of `main.go`, over an in-memory model of the key-value store the
repository talks to through `redis.Conn`.

Go `int` is the 64-bit signed integer; it is embedded as `Int`, and `IsInt64`
states that a value lies in the machine range.  No arithmetic is performed on
identifiers by the Go code itself (the increment happens inside the store), so
the range only matters where decimal text is parsed back into an `int`.
-/

namespace RestApiSample

deriving instance DecidableEq for Except

/-! ## strconv: decimal text of machine integers -/

namespace Strconv

/-- The largest Go `int` (64-bit), `1<<63 - 1`. -/
def maxInt64 : Nat := 9223372036854775807

/-- A value of Go type `int`: within the signed 64-bit range. -/
def IsInt64 (n : Int) : Prop := -(maxInt64 + 1 : Int) ≤ n ∧ n ≤ (maxInt64 : Int)

instance (n : Int) : Decidable (IsInt64 n) := by unfold IsInt64; infer_instance

/-- The ASCII digit of `d` (for `d < 10`). -/
def digitChar (d : Nat) : Char := Char.ofNat (d + 48)

/-- Whether `c` is one of the bytes `'0'..'9'`. -/
def isDigit (c : Char) : Bool := decide (48 ≤ c.toNat) && decide (c.toNat ≤ 57)

/-- The digit loop of `strconv.formatBits` for base 10: the least significant
digit is produced first and written in front of the digits already produced. -/
def formatBits : Nat → Nat → List Char → List Char
  | 0, _, acc => acc
  | fuel + 1, n, acc =>
    if n / 10 = 0 then digitChar (n % 10) :: acc
    else formatBits fuel (n / 10) (digitChar (n % 10) :: acc)

/-- Decimal digits of a natural number (`strconv.FormatUint(n, 10)`). -/
def formatNat (n : Nat) : List Char := formatBits (n + 1) n []

/-- Embedding of `strconv.Itoa`: a leading `-` for negative values, then the digits of the
magnitude. -/
def Itoa (n : Int) : String :=
  if n < 0 then String.mk ('-' :: formatNat n.natAbs) else String.mk (formatNat n.natAbs)

/-- The two ways `strconv.Atoi` / `strconv.ParseInt` fail. -/
inductive NumErrKind
  | ErrSyntax
  | ErrRange
  deriving DecidableEq, Repr

/-- The value of a run of decimal digits, most significant first. -/
def digitsValue (cs : List Char) : Nat :=
  cs.foldl (fun acc c => acc * 10 + (c.toNat - 48)) 0

/-- Unsigned part of `strconv.ParseInt(s, 10, 64)`: a non-empty run of decimal
digits, no other byte allowed. -/
def parseDigits (cs : List Char) : Option Nat :=
  if cs ≠ [] ∧ cs.all isDigit then some (digitsValue cs) else none

/-- Embedding of `strconv.Atoi` (equivalently `strconv.ParseInt(s, 10, 64)`): an optional sign
`+` or `-`, a non-empty run of decimal digits, and the signed 64-bit range
check (`ErrRange` beyond `maxInt64`, respectively below `-(maxInt64+1)`). -/
def Atoi (s : String) : Except NumErrKind Int :=
  match s.data with
  | [] => .error .ErrSyntax
  | '-' :: cs =>
    match parseDigits cs with
    | none => .error .ErrSyntax
    | some v => if v ≤ maxInt64 + 1 then .ok (-(v : Int)) else .error .ErrRange
  | '+' :: cs =>
    match parseDigits cs with
    | none => .error .ErrSyntax
    | some v => if v ≤ maxInt64 then .ok (v : Int) else .error .ErrRange
  | cs =>
    match parseDigits cs with
    | none => .error .ErrSyntax
    | some v => if v ≤ maxInt64 then .ok (v : Int) else .error .ErrRange

end Strconv

/-! ## The key-value store behind `redis.Conn`

The store is an external collaborator; only the commands the repository issues
are modelled (EXISTS, SET, INCR, HMSET, HGETALL, KEYS), with the replies and
error replies of a Redis server.  A connection carries the store and a script of
transport faults: every command consumes one script entry, and an entry
`some msg` makes that command fail with an I/O error before it reaches the
store.  An exhausted script means no further faults. -/

/-- What a key can hold.  `list` stands for the kinds that are neither a plain
string nor a hash. -/
inductive Value
  | str (s : String)
  | hash (fields : List (String × String))
  | list (items : List String)
  deriving DecidableEq, Repr

/-- The keyspace, in key-enumeration order. -/
abbrev Store := List (String × Value)

/-- The errors that travel through the repository and the handlers. -/
inductive Err
  /-- Sentinel `v1.ErrNoUserFound`. -/
  | ErrNoUserFound
  /-- Sentinel `ErrInvalidUserID` of `main.go`. -/
  | ErrInvalidUserID
  /-- An error reply of the store (`redis.Error`). -/
  | redis (msg : String)
  /-- A transport failure of the connection. -/
  | io (msg : String)
  /-- A `*strconv.NumError` of function `fn` on input `num`. -/
  | num (fn : String) (num : String) (kind : Strconv.NumErrKind)
  /-- The error of `redis.ScanStruct` for a field that cannot be converted. -/
  | scan (field : String) (num : String) (kind : Strconv.NumErrKind)
  /-- A decoding error of `encoding/json`. -/
  | json (msg : String)
  deriving DecidableEq, Repr

/-- The reply text for a command applied to a key of the wrong kind. -/
def wrongType : String := "WRONGTYPE Operation against a key holding the wrong kind of value"

/-! Both the keyspace and a hash are association lists with string keys. -/

namespace Assoc

/-- The value at `key`, if any. -/
def get {β : Type} : List (String × β) → String → Option β
  | [], _ => none
  | (k, v) :: rest, key => if k = key then some v else get rest key

/-- Replace the value wherever `key` occurs. -/
def overwrite {β : Type} : List (String × β) → String → β → List (String × β)
  | [], _, _ => []
  | (k, w) :: rest, key, v =>
    if k = key then (key, v) :: overwrite rest key v else (k, w) :: overwrite rest key v

/-- Bind `key` to `v`: overwrite where the key is present, else add it last. -/
def put {β : Type} (l : List (String × β)) (key : String) (v : β) : List (String × β) :=
  if (get l key).isSome then overwrite l key v else l ++ [(key, v)]

end Assoc

/-- Set one field of a hash. -/
def hset (h : List (String × String)) (field val : String) : List (String × String) :=
  Assoc.put h field val

/-- Set several fields in the order given (the field/value arguments of HMSET). -/
def hmset (h : List (String × String)) (pairs : List (String × String)) :
    List (String × String) :=
  pairs.foldl (fun acc p => hset acc p.1 p.2) h

/-- One element of a glob pattern. -/
inductive GlobTok
  | lit (c : Char)
  | one
  | many
  | cls (ranges : List (Char × Char))
  deriving DecidableEq, Repr

/-- Split a glob pattern into its elements: `*`, `?`, a bracket class of
characters and ranges `a-b`, or a literal character (escapes and negated
classes are not modelled).  The second argument is the bracket class being
read, if any. -/
def globTokens : List Char → Option (List (Char × Char)) → List GlobTok
  | [], none => []
  | [], some rs => [.cls rs.reverse]
  | c :: p, none =>
    if c = '[' then globTokens p (some [])
    else if c = '*' then .many :: globTokens p none
    else if c = '?' then .one :: globTokens p none
    else .lit c :: globTokens p none
  | ']' :: p, some rs => .cls rs.reverse :: globTokens p none
  | a :: '-' :: b :: p, some rs => globTokens p (some ((a, b) :: rs))
  | a :: p, some rs => globTokens p (some ((a, a) :: rs))

/-- Whether the characters match the pattern elements, all of them. -/
def globMatch : List GlobTok → List Char → Bool
  | [], s => s.isEmpty
  | .many :: ts, s => s.tails.any (globMatch ts)
  | .lit _ :: _, [] => false
  | .lit c :: ts, x :: s => decide (c = x) && globMatch ts s
  | .one :: _, [] => false
  | .one :: ts, _ :: s => globMatch ts s
  | .cls _ :: _, [] => false
  | .cls rs :: ts, x :: s =>
    rs.any (fun r => decide (r.1.toNat ≤ x.toNat) && decide (x.toNat ≤ r.2.toNat))
      && globMatch ts s

/-- A connection: the store it reaches and the transport faults to come. -/
structure Conn where
  db : Store
  faults : List (Option String)
  deriving DecidableEq, Repr

namespace Conn

/-- The fault, if any, that hits the next command. -/
def nextFault (c : Conn) : Option String := c.faults.head?.join

/-- The connection once the next command has been sent. -/
def sent (c : Conn) : Conn := { c with faults := c.faults.tail }

/-- Reply to `redis.Int(conn.Do("EXISTS", key))`. -/
def EXISTS (c : Conn) (key : String) : Except Err Int × Conn :=
  match c.nextFault with
  | some msg => (.error (.io msg), c.sent)
  | none => (.ok (if (Assoc.get c.db key).isSome then 1 else 0), c.sent)

/-- Reply to `redis.String(conn.Do("SET", key, val))`: any previous value of
the key is replaced by the string. -/
def SET (c : Conn) (key val : String) : Except Err String × Conn :=
  match c.nextFault with
  | some msg => (.error (.io msg), c.sent)
  | none => (.ok "OK", { c.sent with db := Assoc.put c.db key (.str val) })

/-- Reply to `redis.Int(conn.Do("INCR", key))`: the string at the key must be
the canonical decimal text of a signed 64-bit integer, and the increment must
not overflow. -/
def INCR (c : Conn) (key : String) : Except Err Int × Conn :=
  match c.nextFault with
  | some msg => (.error (.io msg), c.sent)
  | none =>
    match Assoc.get c.db key with
    | none => (.ok 1, { c.sent with db := Assoc.put c.db key (.str "1") })
    | some (.str s) =>
      match Strconv.Atoi s with
      | .ok v =>
        if Strconv.Itoa v = s then
          if v + 1 ≤ (Strconv.maxInt64 : Int) then
            (.ok (v + 1), { c.sent with db := Assoc.put c.db key (.str (Strconv.Itoa (v + 1))) })
          else (.error (.redis "ERR increment or decrement would overflow"), c.sent)
        else (.error (.redis "ERR value is not an integer or out of range"), c.sent)
      | .error _ => (.error (.redis "ERR value is not an integer or out of range"), c.sent)
    | some _ => (.error (.redis wrongType), c.sent)

/-- Reply to `conn.Do("HMSET", key, field, value, ...)`, of which the caller
keeps only the error. -/
def HMSET (c : Conn) (key : String) (pairs : List (String × String)) : Option Err × Conn :=
  match c.nextFault with
  | some msg => (some (.io msg), c.sent)
  | none =>
    match Assoc.get c.db key with
    | none => (none, { c.sent with db := Assoc.put c.db key (.hash (hmset [] pairs)) })
    | some (.hash h) => (none, { c.sent with db := Assoc.put c.db key (.hash (hmset h pairs)) })
    | some _ => (some (.redis wrongType), c.sent)

/-- Reply to `redis.Values(conn.Do("HGETALL", key))`, as field/value pairs: no
pairs for an absent key. -/
def HGETALL (c : Conn) (key : String) : Except Err (List (String × String)) × Conn :=
  match c.nextFault with
  | some msg => (.error (.io msg), c.sent)
  | none =>
    match Assoc.get c.db key with
    | none => (.ok [], c.sent)
    | some (.hash h) => (.ok h, c.sent)
    | some _ => (.error (.redis wrongType), c.sent)

/-- Reply to `redis.Strings(conn.Do("KEYS", pattern))`. -/
def KEYS (c : Conn) (pattern : String) : Except Err (List String) × Conn :=
  match c.nextFault with
  | some msg => (.error (.io msg), c.sent)
  | none =>
    (.ok ((c.db.map (fun e => e.1)).filter
      (fun k => globMatch (globTokens pattern.data none) k.data)), c.sent)

end Conn

/-! ## The user repository (`pkg/service/v1/users.go`) -/

/-- A Go slice built by `var xs []T` and `append`: `none` is the nil slice. -/
abbrev Slice (α : Type) := Option (List α)

/-- Go `append(xs, x)`; appending to the nil slice allocates. -/
def Slice.append {α : Type} (xs : Slice α) (x : α) : Slice α :=
  match xs with
  | none => some [x]
  | some l => some (l ++ [x])

/-- The elements a `range` loop visits; none for the nil slice. -/
def Slice.elems {α : Type} (xs : Slice α) : List α := xs.getD []

/-- Go `strings.TrimPrefix`. -/
def TrimPrefix (s p : String) : String :=
  if p.data.isPrefixOf s.data then String.mk (s.data.drop p.data.length) else s

namespace V1

/-- The record `v1.User`, stored under the hash fields `id`, `name`, `age`,
`city`. -/
structure User where
  ID : Int
  Name : String
  Age : Int
  City : String
  deriving DecidableEq, Repr

/-- A record whose integer fields are Go `int` values. -/
def User.WellTyped (u : User) : Prop := Strconv.IsInt64 u.ID ∧ Strconv.IsInt64 u.Age

instance (u : User) : Decidable u.WellTyped := by unfold User.WellTyped; infer_instance

def userKeyPrefix : String := "user:"

/-- The field/value arguments `redis.Args{}.AddFlat(user)` produces, integers
in decimal text. -/
def AddFlat (user : User) : List (String × String) :=
  [("id", Strconv.Itoa user.ID), ("name", user.Name),
   ("age", Strconv.Itoa user.Age), ("city", user.City)]

/-- Embedding of `redis.ScanStruct`: each field/value pair whose name is a tag of `User` is
converted and assigned, in reply order; other names are skipped. -/
def ScanStruct : List (String × String) → User → Except Err User
  | [], user => .ok user
  | (name, s) :: rest, user =>
    if name = "id" then
      match Strconv.Atoi s with
      | .ok x => ScanStruct rest { user with ID := x }
      | .error k => .error (.scan "id" s k)
    else if name = "name" then ScanStruct rest { user with Name := s }
    else if name = "age" then
      match Strconv.Atoi s with
      | .ok x => ScanStruct rest { user with Age := x }
      | .error k => .error (.scan "age" s k)
    else if name = "city" then ScanStruct rest { user with City := s }
    else ScanStruct rest user

/-- Embedding of `FindUserByID` (users.go:49). -/
def FindUserByID (conn : Conn) (userID : Int) : Except Err User × Conn :=
  let userKey := userKeyPrefix ++ Strconv.Itoa userID
  match conn.HGETALL userKey with
  | (.error err, conn) => (.error err, conn)
  | (.ok values, conn) =>
    if values.length = 0 then (.error .ErrNoUserFound, conn)
    else
      match ScanStruct values ⟨0, "", 0, ""⟩ with
      | .error err => (.error err, conn)
      | .ok user => (.ok user, conn)

/-- The loop of `ListAllUsers` over the keys found (users.go:33). -/
def listLoop : Conn → List String → Slice User → Except Err (Slice User) × Conn
  | conn, [], users => (.ok users, conn)
  | conn, key :: keys, users =>
    let idString := TrimPrefix key userKeyPrefix
    match Strconv.Atoi idString with
    | .error k => (.error (.num "Atoi" idString k), conn)
    | .ok id =>
      match FindUserByID conn id with
      | (.error err, conn) => (.error err, conn)
      | (.ok user, conn) => listLoop conn keys (users.append user)

/-- Embedding of `ListAllUsers` (users.go:24). -/
def ListAllUsers (conn : Conn) : Except Err (Slice User) × Conn :=
  let userIDPattern := userKeyPrefix ++ "[0-9]"
  match conn.KEYS userIDPattern with
  | (.error err, conn) => (.error err, conn)
  | (.ok keys, conn) => listLoop conn keys none

/-- Embedding of `getNewUserID` (users.go:99). -/
def getNewUserID (conn : Conn) : Except Err Int × Conn :=
  let key := "userIncrID"
  match conn.EXISTS key with
  | (.error err, conn) => (.error err, conn)
  | (.ok exists_, conn) =>
    if exists_ = 0 then
      match conn.SET key (Strconv.Itoa 1) with
      | (.error err, conn) => (.error err, conn)
      | (.ok _, conn) => (.ok 1, conn)
    else
      match conn.INCR key with
      | (.error err, conn) => (.error err, conn)
      | (.ok id, conn) => (.ok id, conn)

/-- Embedding of `CreateOrUpdateUser` (users.go:68).  The result is the returned error
(`none` for nil), the record the caller holds afterwards (the function writes
`user.ID` through the pointer), and the connection.  On the update path the
error of EXISTS is assigned and not looked at: `redis.Int` yields `0` together
with an error, and only the integer is tested. -/
def CreateOrUpdateUser (conn : Conn) (user : User) : Option Err × User × Conn :=
  if user.ID > 0 then
    let userID := "user:" ++ Strconv.Itoa user.ID
    let (reply, conn) := conn.EXISTS userID
    let exists_ : Int := match reply with
      | .ok n => n
      | .error _ => 0
    if exists_ = 0 then (some .ErrNoUserFound, user, conn)
    else
      match conn.HMSET userID (AddFlat user) with
      | (some err, conn) => (some err, user, conn)
      | (none, conn) => (none, user, conn)
  else
    match getNewUserID conn with
    | (.error err, conn) => (some err, user, conn)
    | (.ok id, conn) =>
      let user := { user with ID := id }
      let userID := "user:" ++ Strconv.Itoa id
      match conn.HMSET userID (AddFlat user) with
      | (some err, conn) => (some err, user, conn)
      | (none, conn) => (none, user, conn)

end V1

/-- The store `loadInitData` leaves when run on an empty store (main.go:46). -/
def initStore : Store :=
  [("user:1", .hash [("id", "1"), ("name", "John"), ("age", "31"), ("city", "New York")]),
   ("user:2", .hash [("id", "2"), ("name", "Doe"), ("age", "22"), ("city", "Vancouver")])]

/-! ## encoding/json and the handlers (`main.go`) -/

namespace Json

/-- Lower-case hexadecimal digit. -/
def hexDigit (n : Nat) : Char := "0123456789abcdef".data.getD n '0'

/-- How `json.Marshal` writes one character of a string: the two-character
escapes for the quote, the backslash, newline, carriage return and tab;
`\u00xx` for the other control characters and for the HTML characters `<`, `>`,
`&`; `\u2028` and `\u2029` for the two line separators; the character itself
otherwise. -/
def escapeChar (c : Char) : List Char :=
  if c = '"' then ['\\', '"']
  else if c = '\\' then ['\\', '\\']
  else if c = '\n' then ['\\', 'n']
  else if c = '\r' then ['\\', 'r']
  else if c = '\t' then ['\\', 't']
  else if c.toNat < 32 ∨ c = '<' ∨ c = '>' ∨ c = '&' then
    ['\\', 'u', '0', '0', hexDigit (c.toNat / 16), hexDigit (c.toNat % 16)]
  else if c.toNat = 8232 then ['\\', 'u', '2', '0', '2', '8']
  else if c.toNat = 8233 then ['\\', 'u', '2', '0', '2', '9']
  else [c]

/-- A string as a JSON string literal. -/
def quote (s : String) : String :=
  String.mk ('"' :: s.data.foldr (fun c acc => escapeChar c ++ acc) ['"'])

/-- The members of a JSON object, or the elements of an array, comma separated. -/
def commaSep : List String → String
  | [] => ""
  | [x] => x
  | x :: xs => x ++ "," ++ commaSep xs

end Json

/-- Text of a `*strconv.NumError`; the quoting of the offending input is
rendered as a JSON-style string literal. -/
def numErrorText (fn num : String) (kind : Strconv.NumErrKind) : String :=
  "strconv." ++ fn ++ ": parsing " ++ Json.quote num ++ ": " ++
    (match kind with
     | .ErrSyntax => "invalid syntax"
     | .ErrRange => "value out of range")

/-- The method `Error()` of the errors. -/
def Err.Error : Err → String
  | .ErrNoUserFound => "no user found"
  | .ErrInvalidUserID => "invalid userID"
  | .redis msg => msg
  | .io msg => msg
  | .num fn input kind => numErrorText fn input kind
  | .scan field input kind =>
    "redigo.ScanStruct: cannot assign field " ++ field ++ ": " ++
      numErrorText "ParseInt" input kind
  | .json msg => msg

namespace Main

/-- The record `User` of `main.go`, with JSON tags `id`, `name`, `age`, `city`. -/
structure User where
  ID : Int
  Name : String
  Age : Int
  City : String
  deriving DecidableEq, Repr

/-- What a handler wrote to the `http.ResponseWriter`. -/
structure Response where
  status : Nat
  contentType : String
  body : String
  deriving DecidableEq, Repr

def StatusOK : Nat := 200
def StatusCreated : Nat := 201
def StatusBadRequest : Nat := 400
def StatusNotFound : Nat := 404
def StatusInternalServerError : Nat := 500

/-- The values the handlers hand to `json.Marshal`. -/
inductive Data
  | user (u : User)
  | users (us : Slice User)
  | stringMap (key val : String)
  deriving DecidableEq, Repr

/-- Embedding of `json.Marshal` on `User`: the members in field order under their tags. -/
def marshalUser (u : User) : String :=
  "\x7b" ++ Json.commaSep
    [Json.quote "id" ++ ":" ++ Strconv.Itoa u.ID, Json.quote "name" ++ ":" ++ Json.quote u.Name,
     Json.quote "age" ++ ":" ++ Strconv.Itoa u.Age, Json.quote "city" ++ ":" ++ Json.quote u.City]
    ++ "\x7d"

/-- Embedding of `json.Marshal`: a nil slice is `null`, any other slice an array; a
one-entry `map[string]string` an object. -/
def Marshal : Data → String
  | .user u => marshalUser u
  | .users none => "null"
  | .users (some l) => "[" ++ Json.commaSep (l.map marshalUser) ++ "]"
  | .stringMap key val => "\x7b" ++ Json.quote key ++ ":" ++ Json.quote val ++ "\x7d"

/-- Embedding of `renderJSONResp` (main.go:146). -/
def renderJSONResp (httpStatus : Nat) (data : Data) : Response :=
  let response := Marshal data
  ⟨httpStatus, "application/json", response⟩

/-- Embedding of `renderJSONErrorResp` (main.go:153). -/
def renderJSONErrorResp (httpStatus : Nat) (err : Err) : Response :=
  let response := Marshal (.stringMap "error" err.Error)
  ⟨httpStatus, "application/json", response⟩

/-- Embedding of `App.createOrUpdateUser` (main.go:73).  `decoded` is the outcome of
`json.NewDecoder(r.Body).Decode(&user)`: the decoded payload, or the decoding
error. -/
def createOrUpdateUser (conn : Conn) (decoded : Except Err User) : Response × Conn :=
  match decoded with
  | .error err => (renderJSONErrorResp StatusBadRequest err, conn)
  | .ok user =>
    let userData : V1.User := ⟨user.ID, user.Name, user.Age, user.City⟩
    match V1.CreateOrUpdateUser conn userData with
    | (some err, _, conn) =>
      if err = .ErrNoUserFound then (renderJSONErrorResp StatusNotFound err, conn)
      else (renderJSONErrorResp StatusInternalServerError err, conn)
    | (none, _, conn) =>
      if user.ID > 0 then
        (renderJSONResp StatusOK (.stringMap "message" "user updated successfully"), conn)
      else
        (renderJSONResp StatusCreated (.stringMap "message" "user created successfully"), conn)

/-- Embedding of `App.getUsers` (main.go:102). -/
def getUsers (conn : Conn) : Response × Conn :=
  match V1.ListAllUsers conn with
  | (.error err, conn) => (renderJSONErrorResp StatusInternalServerError err, conn)
  | (.ok usersData, conn) =>
    let users : Slice User :=
      (Slice.elems usersData).foldl
        (fun users userData =>
          Slice.append users ⟨userData.ID, userData.Name, userData.Age, userData.City⟩)
        none
    (renderJSONResp StatusOK (.users users), conn)

/-- Embedding of `App.getUserByID` (main.go:121).  `id` is `mux.Vars(r)["id"]`, the empty
string when the request carries no such variable. -/
def getUserByID (conn : Conn) (id : String) : Response × Conn :=
  match Strconv.Atoi id with
  | .error _ => (renderJSONErrorResp StatusBadRequest .ErrInvalidUserID, conn)
  | .ok userID =>
    match V1.FindUserByID conn userID with
    | (.error err, conn) =>
      if err = .ErrNoUserFound then (renderJSONErrorResp StatusNotFound err, conn)
      else (renderJSONErrorResp StatusInternalServerError err, conn)
    | (.ok userData, conn) =>
      let user : User := ⟨userData.ID, userData.Name, userData.Age, userData.City⟩
      (renderJSONResp StatusOK (.user user), conn)

/-- Embedding of `App.loadInitData` (main.go:46): two HMSET commands, the second only when
the first did not fail.  The fields of each Go map are written in the order of
the source literal (Go leaves the order of a map's entries open). -/
def loadInitData (conn : Conn) : Option Err × Conn :=
  let user1 := [("id", "1"), ("name", "John"), ("age", "31"), ("city", "New York")]
  let user2 := [("id", "2"), ("name", "Doe"), ("age", "22"), ("city", "Vancouver")]
  match conn.HMSET "user:1" user1 with
  | (some err, conn) => (some err, conn)
  | (none, conn) =>
    match conn.HMSET "user:2" user2 with
    | (some err, conn) => (some err, conn)
    | (none, conn) => (none, conn)

end Main

/-! ## Vocabulary of the statements -/

/-- Whether a key matches the pattern `ListAllUsers` enumerates,
`userKeyPrefix + "[0-9]"`. -/
def matchesUserIDPattern (key : String) : Bool :=
  globMatch (globTokens (V1.userKeyPrefix ++ "[0-9]").data none) key.data

/-- Field `f` is present in the hash and every entry of that name holds `v`. -/
def Holds (h : List (String × String)) (f v : String) : Prop :=
  (Assoc.get h f).isSome = true ∧ ∀ e ∈ h, e.1 = f → e.2 = v

/-- The stored fields of record `t`: what a hash may hold under the four tags
for `ScanStruct` to read `t` back. -/
def FieldsOf (t : V1.User) (l : List (String × String)) : Prop :=
  ∀ e ∈ l, (e.1 = "id" → e.2 = Strconv.Itoa t.ID) ∧ (e.1 = "name" → e.2 = t.Name) ∧
    (e.1 = "age" → e.2 = Strconv.Itoa t.Age) ∧ (e.1 = "city" → e.2 = t.City)

/-- The ids the successive calls of `CreateOrUpdateUser` on the records `us`
assign: for every call with `id <= 0` that returns nil, the id the caller's
record holds afterwards. -/
def assignedIDs : Conn → List V1.User → List Int
  | _, [] => []
  | conn, u :: us =>
    match V1.CreateOrUpdateUser conn u with
    | (err, u', conn') =>
      if u.ID ≤ 0 ∧ err = none then u'.ID :: assignedIDs conn' us else assignedIDs conn' us

/-- How many of the calls are creations (`id <= 0`). -/
def numCreates (us : List V1.User) : Nat := (us.filter (fun u => decide (u.ID ≤ 0))).length

/-- The states reached from the empty store by fault-free calls, `k` ids having
been allocated: the counter key is absent (`k = 0`) or holds the text of `k`,
and every other key holds a hash. -/
structure Reached (conn : Conn) (k : Nat) : Prop where
  faults : conn.faults = []
  bound : k ≤ Strconv.maxInt64
  counter : Assoc.get conn.db "userIncrID" =
    if k = 0 then none else some (Value.str (Strconv.Itoa (k : Int)))
  users : ∀ key v, key ≠ "userIncrID" → Assoc.get conn.db key = some v → ∃ h, v = Value.hash h

/-! ## Decimal text: `Atoi` reads back what `Itoa` writes -/

namespace Strconv

theorem digitChar_toNat : ∀ d, d < 10 → (digitChar d).toNat = d + 48 := by decide

theorem isDigit_digitChar : ∀ d, d < 10 → isDigit (digitChar d) = true := by decide

theorem isDigit_ne_sign {c : Char} (h : isDigit c = true) : c ≠ '-' ∧ c ≠ '+' := by
  constructor <;> (rintro rfl; revert h; decide)

theorem digitsValue_snoc (ds : List Char) (c : Char) :
    digitsValue (ds ++ [c]) = digitsValue ds * 10 + (c.toNat - 48) := by
  simp [digitsValue, List.foldl_append]

/-- The digit loop writes, in front of what is already there, a non-empty run
of digits whose value is the number formatted. -/
theorem formatBits_spec (fuel : Nat) : ∀ (n : Nat) (acc : List Char), n < fuel →
    ∃ ds, formatBits fuel n acc = ds ++ acc ∧ ds ≠ [] ∧ ds.all isDigit = true ∧
      digitsValue ds = n := by
  induction fuel with
  | zero => intro n acc h; omega
  | succ fuel ih =>
    intro n acc h
    have hd : n % 10 < 10 := Nat.mod_lt _ (by decide)
    by_cases h0 : n / 10 = 0
    · refine ⟨[digitChar (n % 10)], by simp [formatBits, h0], by simp, ?_, ?_⟩
      · simp [isDigit_digitChar _ hd]
      · simp [digitsValue, digitChar_toNat _ hd]; omega
    · obtain ⟨ds, hds, _, hall, hval⟩ := ih (n / 10) (digitChar (n % 10) :: acc) (by omega)
      refine ⟨ds ++ [digitChar (n % 10)], by simp [formatBits, h0, hds], by simp, ?_, ?_⟩
      · simp [List.all_append, hall, isDigit_digitChar _ hd]
      · rw [digitsValue_snoc, hval, digitChar_toNat _ hd]; omega

theorem formatNat_spec (n : Nat) :
    formatNat n ≠ [] ∧ (formatNat n).all isDigit = true ∧ digitsValue (formatNat n) = n := by
  obtain ⟨ds, hds, hne, hall, hval⟩ := formatBits_spec (n + 1) n [] (by omega)
  simp only [List.append_nil] at hds
  simp only [formatNat, hds]
  exact ⟨hne, hall, hval⟩

/-- On a non-empty run of digits `Atoi` only checks the range. -/
theorem Atoi_digits (cs : List Char) (hne : cs ≠ []) (hall : cs.all isDigit = true) :
    Atoi (String.mk cs) =
      if digitsValue cs ≤ maxInt64 then .ok (digitsValue cs : Int) else .error .ErrRange := by
  cases cs with
  | nil => exact absurd rfl hne
  | cons c cs =>
    have hc : isDigit c = true := by simp [List.all_cons] at hall; exact hall.1
    obtain ⟨h1, h2⟩ := isDigit_ne_sign hc
    have hp : parseDigits (c :: cs) = some (digitsValue (c :: cs)) := by
      simp [parseDigits, hall]
    unfold Atoi
    split
    · rename_i heq; simp at heq
    · rename_i heq; simp at heq; exact absurd heq.1 h1
    · rename_i heq; simp at heq; exact absurd heq.1 h2
    · simp only [hp]

/-- After a minus sign `Atoi` reads the magnitude. -/
theorem Atoi_minus (cs : List Char) (hne : cs ≠ []) (hall : cs.all isDigit = true) :
    Atoi (String.mk ('-' :: cs)) =
      if digitsValue cs ≤ maxInt64 + 1 then .ok (-(digitsValue cs : Int))
      else .error .ErrRange := by
  have hp : parseDigits cs = some (digitsValue cs) := by simp [parseDigits, hall, hne]
  simp [Atoi, hp]

/-- Round trip: `Atoi (Itoa n) = n` for every Go `int`. -/
theorem Atoi_Itoa (n : Int) (h : IsInt64 n) : Atoi (Itoa n) = .ok n := by
  obtain ⟨hne, hall, hval⟩ := formatNat_spec n.natAbs
  unfold IsInt64 at h
  unfold Itoa
  by_cases hn : n < 0
  · rw [if_pos hn, Atoi_minus _ hne hall, hval, if_pos (by omega)]
    congr 1; omega
  · rw [if_neg hn, Atoi_digits _ hne hall, hval, if_pos (by omega)]
    congr 1; omega

/-- What `Atoi` returns is a Go `int`. -/
theorem Atoi_isInt64 (s : String) (v : Int) (h : Atoi s = .ok v) : IsInt64 v := by
  unfold Atoi at h
  unfold IsInt64
  split at h
  · simp at h
  · split at h
    · simp at h
    · split at h
      · simp only [Except.ok.injEq] at h; omega
      · simp at h
  · split at h
    · simp at h
    · split at h
      · simp only [Except.ok.injEq] at h; omega
      · simp at h
  · split at h
    · simp at h
    · split at h
      · simp only [Except.ok.injEq] at h; omega
      · simp at h

end Strconv

theorem isInt64_of_le_max (k : Nat) (h : k ≤ Strconv.maxInt64) : Strconv.IsInt64 (k : Int) := by
  unfold Strconv.IsInt64
  constructor
  · have : (0 : Int) ≤ (k : Int) := Int.ofNat_nonneg k
    have : (0 : Int) ≤ (Strconv.maxInt64 : Int) := Int.ofNat_nonneg _
    omega
  · exact_mod_cast h

/-! ## Store and hash updates -/

namespace Assoc

theorem get_overwrite {β : Type} (l : List (String × β)) (key : String) (v : β) :
    get (overwrite l key v) key = if (get l key).isSome then some v else none := by
  induction l with
  | nil => rfl
  | cons e l ih =>
    obtain ⟨k, w⟩ := e
    by_cases hk : k = key
    · simp [get, overwrite, hk]
    · simp [get, overwrite, hk, ih]

theorem get_append_absent {β : Type} (l : List (String × β)) (key : String) (v : β)
    (h : get l key = none) : get (l ++ [(key, v)]) key = some v := by
  induction l with
  | nil => simp [get]
  | cons e l ih =>
    obtain ⟨k, w⟩ := e
    by_cases hk : k = key
    · simp [get, hk] at h
    · simp only [get, hk, if_false] at h
      simp [get, hk, ih h]

/-- A key reads back the value just bound to it. -/
theorem get_put_same {β : Type} (l : List (String × β)) (key : String) (v : β) :
    get (put l key v) key = some v := by
  unfold put
  cases h : get l key with
  | none => simpa using get_append_absent l key v h
  | some w => simp [get_overwrite, h]

theorem get_overwrite_other {β : Type} (l : List (String × β)) (key other : String) (v : β)
    (hne : other ≠ key) : get (overwrite l key v) other = get l other := by
  have hne2 : ¬ key = other := fun h => hne h.symm
  induction l with
  | nil => rfl
  | cons e l ih =>
    obtain ⟨k, w⟩ := e
    by_cases hk : k = key
    · subst hk; simp [get, overwrite, hne2, ih]
    · by_cases hko : k = other
      · subst hko; simp [get, overwrite, hk]
      · simp [get, overwrite, hk, hko, ih]

theorem get_append_other {β : Type} (l : List (String × β)) (key other : String) (v : β)
    (hne : other ≠ key) : get (l ++ [(key, v)]) other = get l other := by
  have hne2 : ¬ key = other := fun h => hne h.symm
  induction l with
  | nil => simp [get, hne2]
  | cons e l ih =>
    obtain ⟨k, w⟩ := e
    by_cases hko : k = other
    · simp [get, hko]
    · simp [get, hko, ih]

/-- Binding a key leaves every other key as it was. -/
theorem get_put_other {β : Type} (l : List (String × β)) (key other : String) (v : β)
    (hne : other ≠ key) : get (put l key v) other = get l other := by
  unfold put
  split
  · exact get_overwrite_other l key other v hne
  · exact get_append_other l key other v hne

theorem get_isSome_of_mem {β : Type} (l : List (String × β)) (e : String × β) (he : e ∈ l) :
    (get l e.1).isSome = true := by
  induction l with
  | nil => simp at he
  | cons a l ih =>
    obtain ⟨k, w⟩ := a
    by_cases hk : k = e.1
    · simp [get, hk]
    · simp only [get, hk, if_false]
      rcases List.mem_cons.1 he with h | h
      · subst h; exact absurd rfl hk
      · exact ih h

theorem mem_overwrite {β : Type} (l : List (String × β)) (key : String) (v : β)
    (e : String × β) (he : e ∈ overwrite l key v) :
    (e = (key, v)) ∨ (e.1 ≠ key ∧ e ∈ l) := by
  induction l with
  | nil => simp [overwrite] at he
  | cons a l ih =>
    obtain ⟨k, w⟩ := a
    by_cases hk : k = key
    · simp only [overwrite, hk, if_true, List.mem_cons] at he
      rcases he with h | h
      · exact Or.inl h
      · rcases ih h with h' | ⟨h1, h2⟩
        · exact Or.inl h'
        · exact Or.inr ⟨h1, List.mem_cons_of_mem _ h2⟩
    · simp only [overwrite, hk, if_false, List.mem_cons] at he
      rcases he with h | h
      · subst h; exact Or.inr ⟨hk, List.mem_cons_self _ _⟩
      · rcases ih h with h' | ⟨h1, h2⟩
        · exact Or.inl h'
        · exact Or.inr ⟨h1, List.mem_cons_of_mem _ h2⟩

/-- Every entry of an updated list is the new binding or an old entry of
another key. -/
theorem mem_put {β : Type} (l : List (String × β)) (key : String) (v : β)
    (e : String × β) (he : e ∈ put l key v) :
    (e = (key, v)) ∨ (e.1 ≠ key ∧ e ∈ l) := by
  unfold put at he
  split at he
  · exact mem_overwrite l key v e he
  · rename_i hnone
    rcases List.mem_append.1 he with h | h
    · refine Or.inr ⟨?_, h⟩
      intro hk
      exact hnone (hk ▸ get_isSome_of_mem l e h)
    · simp at h; exact Or.inl h

theorem mem_of_get {β : Type} (l : List (String × β)) (key : String) (v : β)
    (h : get l key = some v) : (key, v) ∈ l := by
  induction l with
  | nil => simp [get] at h
  | cons a l ih =>
    obtain ⟨k, w⟩ := a
    by_cases hk : k = key
    · simp [get, hk] at h; subst hk; subst h; exact List.mem_cons_self _ _
    · simp only [get, hk, if_false] at h
      exact List.mem_cons_of_mem _ (ih h)

end Assoc

theorem holds_hset (h : List (String × String)) (f v : String) : Holds (hset h f v) f v := by
  refine ⟨by simp [hset, Assoc.get_put_same], ?_⟩
  intro e he hf
  rcases Assoc.mem_put h f v e he with h1 | ⟨h1, _⟩
  · rw [h1]
  · exact absurd hf h1

theorem holds_hset_other (h : List (String × String)) (f v g w : String) (hne : g ≠ f)
    (hg : Holds h g w) : Holds (hset h f v) g w := by
  obtain ⟨hsome, hall⟩ := hg
  refine ⟨by simpa [hset, Assoc.get_put_other h f g v hne] using hsome, ?_⟩
  intro e he hf
  rcases Assoc.mem_put h f v e he with h1 | ⟨_, h2⟩
  · rw [h1] at hf; exact absurd hf.symm hne
  · exact hall e h2 hf

/-- After HMSET of a record every one of its four fields is present in the hash
with the value written, whatever the hash held before. -/
theorem holds_hmset_AddFlat (h : List (String × String)) (u : V1.User) :
    Holds (hmset h (V1.AddFlat u)) "id" (Strconv.Itoa u.ID) ∧
      Holds (hmset h (V1.AddFlat u)) "name" u.Name ∧
      Holds (hmset h (V1.AddFlat u)) "age" (Strconv.Itoa u.Age) ∧
      Holds (hmset h (V1.AddFlat u)) "city" u.City := by
  simp only [hmset, V1.AddFlat, List.foldl]
  refine ⟨?_, ?_, ?_, ?_⟩
  · exact holds_hset_other _ _ _ _ _ (by decide) (holds_hset_other _ _ _ _ _ (by decide)
      (holds_hset_other _ _ _ _ _ (by decide) (holds_hset _ _ _)))
  · exact holds_hset_other _ _ _ _ _ (by decide) (holds_hset_other _ _ _ _ _ (by decide)
      (holds_hset _ _ _))
  · exact holds_hset_other _ _ _ _ _ (by decide) (holds_hset _ _ _)
  · exact holds_hset _ _ _

/-- Over fields of `t`, `ScanStruct` succeeds and assigns the value of `t` to
each field whose tag occurs, leaving the others as they were. -/
theorem ScanStruct_fieldsOf (t : V1.User) (ht : t.WellTyped) :
    ∀ (l : List (String × String)) (u : V1.User), FieldsOf t l →
      V1.ScanStruct l u = .ok
        ⟨if (Assoc.get l "id").isSome then t.ID else u.ID,
         if (Assoc.get l "name").isSome then t.Name else u.Name,
         if (Assoc.get l "age").isSome then t.Age else u.Age,
         if (Assoc.get l "city").isSome then t.City else u.City⟩ := by
  intro l
  induction l with
  | nil => intro u _; simp [V1.ScanStruct, Assoc.get]
  | cons e l ih =>
    intro u hl
    obtain ⟨name, s⟩ := e
    have hrest : FieldsOf t l := fun e he => hl e (List.mem_cons_of_mem _ he)
    obtain ⟨h1, h2, h3, h4⟩ := hl (name, s) (List.mem_cons_self _ _)
    simp only at h1 h2 h3 h4
    unfold V1.ScanStruct
    by_cases c1 : name = "id"
    · subst c1
      rw [h1 rfl, if_pos rfl, Strconv.Atoi_Itoa _ ht.1]
      simp only [ih _ hrest]
      simp [Assoc.get]
    · rw [if_neg c1]
      by_cases c2 : name = "name"
      · subst c2
        rw [if_pos rfl, ih _ hrest, h2 rfl]
        simp [Assoc.get]
      · rw [if_neg c2]
        by_cases c3 : name = "age"
        · subst c3
          rw [h3 rfl, if_pos rfl, Strconv.Atoi_Itoa _ ht.2]
          simp only [ih _ hrest]
          simp [Assoc.get]
        · rw [if_neg c3]
          by_cases c4 : name = "city"
          · subst c4
            rw [if_pos rfl, ih _ hrest, h4 rfl]
            simp [Assoc.get]
          · rw [if_neg c4, ih _ hrest]
            simp [Assoc.get, c1, c2, c3, c4]

/-- A successful HMSET leaves at the key a hash on which the fields were set. -/
theorem HMSET_ok (c c' : Conn) (key : String) (pairs : List (String × String))
    (h : c.HMSET key pairs = (none, c')) :
    ∃ h0, c' = { c.sent with db := Assoc.put c.db key (Value.hash (hmset h0 pairs)) } := by
  unfold Conn.HMSET at h
  split at h
  · simp at h
  · split at h
    · exact ⟨[], by simp at h; exact h.symm⟩
    · rename_i h0 _
      exact ⟨h0, by simp at h; exact h.symm⟩
    · simp at h

/-- The id `getNewUserID` returns is a Go `int`. -/
theorem getNewUserID_isInt64 (conn c : Conn) (id : Int)
    (h : V1.getNewUserID conn = (.ok id, c)) : Strconv.IsInt64 id := by
  unfold V1.getNewUserID at h
  simp only at h
  split at h
  · simp at h
  · split at h
    · split at h
      · simp at h
      · simp only [Prod.mk.injEq, Except.ok.injEq] at h
        rw [← h.1]; decide
    · split at h
      · simp at h
      · rename_i c1 _ _ id1 c2 hincr
        simp only [Prod.mk.injEq, Except.ok.injEq] at h
        rw [← h.1]
        unfold Conn.INCR at hincr
        split at hincr
        · simp at hincr
        · split at hincr
          · simp only [Prod.mk.injEq, Except.ok.injEq] at hincr
            rw [← hincr.1]; decide
          · split at hincr
            · rename_i v hv
              have hr := Strconv.Atoi_isInt64 _ _ hv
              split at hincr
              · split at hincr
                · simp only [Prod.mk.injEq, Except.ok.injEq] at hincr
                  rw [← hincr.1]
                  unfold Strconv.IsInt64 at hr ⊢
                  omega
                · simp at hincr
              · simp at hincr
            · simp at hincr
          · simp at hincr

/-- What a successful `CreateOrUpdateUser` leaves behind: the hash at
`user:<id>` has had the fields of the resulting record set, and that record is
the input with, on the create path, the allocated id. -/
theorem CreateOrUpdateUser_ok (conn conn' : Conn) (u u' : V1.User)
    (h : V1.CreateOrUpdateUser conn u = (none, u', conn')) :
    (∃ (c : Conn) (h0 : List (String × String)),
        conn'.db = Assoc.put c.db ("user:" ++ Strconv.Itoa u'.ID)
        (Value.hash (hmset h0 (V1.AddFlat u')))) ∧
      u'.Name = u.Name ∧ u'.Age = u.Age ∧ u'.City = u.City ∧
      (if u.ID > 0 then u'.ID = u.ID else Strconv.IsInt64 u'.ID) := by
  unfold V1.CreateOrUpdateUser at h
  by_cases hid : u.ID > 0
  · simp only [hid, if_true] at h ⊢
    rcases hE : conn.EXISTS ("user:" ++ Strconv.Itoa u.ID) with ⟨reply, c0⟩
    simp only [hE] at h
    split at h
    · simp at h
    · rcases hH : c0.HMSET ("user:" ++ Strconv.Itoa u.ID) (V1.AddFlat u) with ⟨eo, c1⟩
      simp only [hH] at h
      cases eo with
      | some e => simp at h
      | none =>
        simp only [Prod.mk.injEq, true_and] at h
        obtain ⟨hu, hc⟩ := h
        subst hu; subst hc
        obtain ⟨h0, hc1⟩ := HMSET_ok _ _ _ _ hH
        exact ⟨⟨_, h0, by rw [hc1]⟩, rfl, rfl, rfl, rfl⟩
  · simp only [hid, if_false] at h ⊢
    rcases hN : V1.getNewUserID conn with ⟨r, c0⟩
    simp only [hN] at h
    cases r with
    | error e => simp at h
    | ok id =>
      simp only at h
      rcases hH : c0.HMSET ("user:" ++ Strconv.Itoa id) (V1.AddFlat { u with ID := id })
        with ⟨eo, c1⟩
      simp only [hH] at h
      cases eo with
      | some e => simp at h
      | none =>
        simp only [Prod.mk.injEq, true_and] at h
        obtain ⟨hu, hc⟩ := h
        subst hu; subst hc
        obtain ⟨h0, hc1⟩ := HMSET_ok _ _ _ _ hH
        exact ⟨⟨_, h0, by rw [hc1]⟩, rfl, rfl, rfl, getNewUserID_isInt64 _ _ _ hN⟩

/-! ## States reached from the empty store -/

theorem userKey_ne_counter (s : String) : "user:" ++ s ≠ "userIncrID" := by
  intro h
  have h4 := congrArg (fun t : String => t.data.get? 4) h
  simp at h4

theorem nextFault_of_faults_nil (c : Conn) (h : c.faults = []) : c.nextFault = none := by
  simp [Conn.nextFault, h]

theorem Reached.put_user {conn : Conn} {k : Nat} (hr : Reached conn k) (s : String)
    (h : List (String × String)) :
    Reached { conn.sent with db := Assoc.put conn.db ("user:" ++ s) (Value.hash h) } k where
  faults := by simp [Conn.sent, hr.faults]
  bound := hr.bound
  counter := by
    simp only
    rw [Assoc.get_put_other _ _ _ _ (userKey_ne_counter s).symm]
    exact hr.counter
  users := by
    intro key v hne hget
    simp only at hget
    by_cases hk : key = "user:" ++ s
    · subst hk
      rw [Assoc.get_put_same] at hget
      exact ⟨h, by simpa using hget.symm⟩
    · rw [Assoc.get_put_other _ _ _ _ hk] at hget
      exact hr.users key v hne hget

theorem Reached.after_sent {conn : Conn} {k : Nat} (hr : Reached conn k) : Reached conn.sent k where
  faults := by simp [Conn.sent, hr.faults]
  bound := hr.bound
  counter := hr.counter
  users := hr.users

theorem Reached.put_counter {conn : Conn} {k : Nat} (hr : Reached conn k) (n : Nat)
    (hn : n ≠ 0) (hb : n ≤ Strconv.maxInt64) :
    Reached { conn.sent with
      db := Assoc.put conn.db "userIncrID" (Value.str (Strconv.Itoa (n : Int))) } n where
  faults := by simp [Conn.sent, hr.faults]
  bound := hb
  counter := by
    simp only [hn, if_false]
    exact Assoc.get_put_same _ _ _
  users := by
    intro key v hne hget
    simp only at hget
    rw [Assoc.get_put_other _ _ _ _ hne] at hget
    exact hr.users key v hne hget

/-- A fault-free HMSET on a user key of a reached state succeeds. -/
theorem Reached.HMSET_user {conn : Conn} {k : Nat} (hr : Reached conn k) (s : String)
    (pairs : List (String × String)) :
    ∃ conn', conn.HMSET ("user:" ++ s) pairs = (none, conn') ∧ Reached conn' k := by
  have hf := nextFault_of_faults_nil conn hr.faults
  unfold Conn.HMSET
  cases hg : Assoc.get conn.db ("user:" ++ s) with
  | none =>
    simp only [hf]
    exact ⟨_, rfl, hr.put_user s _⟩
  | some v =>
    obtain ⟨h, rfl⟩ := hr.users _ v (userKey_ne_counter s) hg
    simp only [hf]
    exact ⟨_, rfl, hr.put_user s _⟩

/-- In a reached state with room left, `getNewUserID` returns the next id. -/
theorem Reached.getNewUserID_next {conn : Conn} {k : Nat} (hr : Reached conn k)
    (hk : k < Strconv.maxInt64) :
    ∃ c, V1.getNewUserID conn = (.ok ((k + 1 : Nat) : Int), c) ∧ Reached c (k + 1) := by
  have hf := nextFault_of_faults_nil conn hr.faults
  have hf1 := nextFault_of_faults_nil conn.sent hr.after_sent.faults
  unfold V1.getNewUserID
  simp only
  by_cases h0 : k = 0
  · subst h0
    have hc : Assoc.get conn.db "userIncrID" = none := by simpa using hr.counter
    have hE : conn.EXISTS "userIncrID" = (.ok 0, conn.sent) := by
      simp [Conn.EXISTS, hf, hc]
    have hS : conn.sent.SET "userIncrID" (Strconv.Itoa 1) = (.ok "OK",
        { conn.sent.sent with
          db := Assoc.put conn.sent.db "userIncrID" (Value.str (Strconv.Itoa 1)) }) := by
      simp [Conn.SET, hf1]
    simp only [hE, hS, if_true]
    exact ⟨_, rfl, hr.after_sent.put_counter 1 (by decide) (by decide)⟩
  · have hc : Assoc.get conn.db "userIncrID" = some (Value.str (Strconv.Itoa (k : Int))) := by
      simpa [h0] using hr.counter
    have hE : conn.EXISTS "userIncrID" = (.ok 1, conn.sent) := by
      simp [Conn.EXISTS, hf, hc]
    have hA := Strconv.Atoi_Itoa (k : Int) (isInt64_of_le_max k hr.bound)
    have hle : (k : Int) + 1 ≤ (Strconv.maxInt64 : Int) := by exact_mod_cast hk
    have hI : conn.sent.INCR "userIncrID" = (.ok ((k : Int) + 1),
        { conn.sent.sent with
          db := Assoc.put conn.sent.db "userIncrID"
            (Value.str (Strconv.Itoa ((k : Int) + 1))) }) := by
      have hc1 : Assoc.get conn.sent.db "userIncrID"
          = some (Value.str (Strconv.Itoa (k : Int))) := hc
      simp only [Conn.INCR, hf1, hc1, hA, hle, if_true]
    have h10 : ¬ ((1 : Int) = 0) := by decide
    simp only [hE, hI, h10, if_false]
    have hcast : ((k + 1 : Nat) : Int) = (k : Int) + 1 := by push_cast; rfl
    rw [hcast]
    refine ⟨_, rfl, ?_⟩
    have := hr.after_sent.put_counter (k + 1) (by omega) (by omega)
    rw [hcast] at this
    exact this

/-- In a reached state whose counter is at the largest `int`, the increment is
refused and nothing changes. -/
theorem Reached.getNewUserID_full {conn : Conn} {k : Nat} (hr : Reached conn k)
    (hk : k = Strconv.maxInt64) :
    ∃ e c, V1.getNewUserID conn = (.error e, c) ∧ Reached c k := by
  have hf := nextFault_of_faults_nil conn hr.faults
  have hf1 := nextFault_of_faults_nil conn.sent hr.after_sent.faults
  have h0 : k ≠ 0 := by rw [hk]; decide
  have hc : Assoc.get conn.db "userIncrID" = some (Value.str (Strconv.Itoa (k : Int))) := by
    simpa [h0] using hr.counter
  have hE : conn.EXISTS "userIncrID" = (.ok 1, conn.sent) := by
    simp [Conn.EXISTS, hf, hc]
  have hA := Strconv.Atoi_Itoa (k : Int) (isInt64_of_le_max k hr.bound)
  have hle : ¬ (k : Int) + 1 ≤ (Strconv.maxInt64 : Int) := by
    rw [hk]; omega
  have hI : conn.sent.INCR "userIncrID" =
      (.error (Err.redis "ERR increment or decrement would overflow"), conn.sent.sent) := by
    have hc1 : Assoc.get conn.sent.db "userIncrID"
        = some (Value.str (Strconv.Itoa (k : Int))) := hc
    simp only [Conn.INCR, hf1, hc1, hA, hle, if_true, if_false]
  have h10 : ¬ ((1 : Int) = 0) := by decide
  unfold V1.getNewUserID
  simp only [hE, hI, h10, if_false]
  exact ⟨_, _, rfl, hr.after_sent.after_sent⟩

/-- An update call in a reached state leaves the record and the counter alone. -/
theorem Reached.update_step {conn : Conn} {k : Nat} (hr : Reached conn k) (u : V1.User)
    (hid : u.ID > 0) :
    ∃ err conn', V1.CreateOrUpdateUser conn u = (err, u, conn') ∧ Reached conn' k := by
  have hf := nextFault_of_faults_nil conn hr.faults
  unfold V1.CreateOrUpdateUser
  simp only [hid, if_true]
  cases hg : Assoc.get conn.db ("user:" ++ Strconv.Itoa u.ID) with
  | none =>
    have hE : conn.EXISTS ("user:" ++ Strconv.Itoa u.ID) = (.ok 0, conn.sent) := by
      simp [Conn.EXISTS, hf, hg]
    simp only [hE, if_true]
    exact ⟨_, _, rfl, hr.after_sent⟩
  | some v =>
    have hE : conn.EXISTS ("user:" ++ Strconv.Itoa u.ID) = (.ok 1, conn.sent) := by
      simp [Conn.EXISTS, hf, hg]
    obtain ⟨c, hH, hrc⟩ := hr.after_sent.HMSET_user (Strconv.Itoa u.ID) (V1.AddFlat u)
    have h10 : ¬ ((1 : Int) = 0) := by decide
    simp only [hE, hH, h10, if_false]
    exact ⟨_, _, rfl, hrc⟩

/-- A create call in a reached state with room left succeeds with the next id. -/
theorem Reached.create_step {conn : Conn} {k : Nat} (hr : Reached conn k) (u : V1.User)
    (hid : ¬ u.ID > 0) (hk : k < Strconv.maxInt64) :
    ∃ conn', V1.CreateOrUpdateUser conn u
        = (none, { u with ID := ((k + 1 : Nat) : Int) }, conn') ∧ Reached conn' (k + 1) := by
  obtain ⟨c, hN, hrc⟩ := hr.getNewUserID_next hk
  obtain ⟨c', hH, hrc'⟩ := hrc.HMSET_user (Strconv.Itoa ((k + 1 : Nat) : Int))
    (V1.AddFlat { u with ID := ((k + 1 : Nat) : Int) })
  unfold V1.CreateOrUpdateUser
  simp only [hid, if_false, hN, hH]
  exact ⟨_, rfl, hrc'⟩

/-- A create call in a reached state whose counter is full fails. -/
theorem Reached.create_full {conn : Conn} {k : Nat} (hr : Reached conn k) (u : V1.User)
    (hid : ¬ u.ID > 0) (hk : k = Strconv.maxInt64) :
    ∃ e conn', V1.CreateOrUpdateUser conn u = (some e, u, conn') ∧ Reached conn' k := by
  obtain ⟨e, c, hN, hrc⟩ := hr.getNewUserID_full hk
  unfold V1.CreateOrUpdateUser
  simp only [hid, if_false, hN]
  exact ⟨_, _, rfl, hrc⟩

theorem reached_empty : Reached ⟨[], []⟩ 0 where
  faults := rfl
  bound := Nat.zero_le _
  counter := rfl
  users := by intro key v _ h; simp [Assoc.get] at h

/-- From a reached state with `k` ids allocated, the ids assigned by a run of
calls are `k+1, k+2, ...`, one per create call, as long as the counter has
room. -/
theorem assignedIDs_reached : ∀ (us : List V1.User) (conn : Conn) (k : Nat), Reached conn k →
    assignedIDs conn us =
      (List.range' (k + 1) (min (numCreates us) (Strconv.maxInt64 - k))).map
        (fun n : Nat => (n : Int)) := by
  intro us
  induction us with
  | nil => intro conn k _; simp [assignedIDs, numCreates]
  | cons u us ih =>
    intro conn k hr
    by_cases hid : u.ID > 0
    · obtain ⟨err, conn', hstep, hr'⟩ := hr.update_step u hid
      have hnot : ¬ u.ID ≤ 0 := by omega
      have hnum : numCreates (u :: us) = numCreates us := by
        simp [numCreates, List.filter_cons, hnot]
      simp only [assignedIDs, hstep, hnot, false_and, if_false, hnum]
      exact ih conn' k hr'
    · have hle : u.ID ≤ 0 := by omega
      have hnum : numCreates (u :: us) = numCreates us + 1 := by
        simp [numCreates, List.filter_cons, hle]
      by_cases hk : k < Strconv.maxInt64
      · obtain ⟨conn', hstep, hr'⟩ := hr.create_step u hid hk
        have hmin : min (numCreates us + 1) (Strconv.maxInt64 - k)
            = min (numCreates us) (Strconv.maxInt64 - (k + 1)) + 1 := by omega
        simp only [assignedIDs, hstep, hle, true_and, if_true, hnum, hmin, List.range'_succ,
          List.map_cons]
        rw [ih conn' (k + 1) hr']
      · have hkeq : k = Strconv.maxInt64 := by have := hr.bound; omega
        obtain ⟨e, conn', hstep, hr'⟩ := hr.create_full u hid hkeq
        have hmin : min (numCreates us + 1) (Strconv.maxInt64 - k) = 0 := by omega
        simp only [assignedIDs, hstep, hnum, hmin, List.range', List.map_nil]
        rw [if_neg (by simp), ih conn' k hr']
        have hmin2 : min (numCreates us) (Strconv.maxInt64 - k) = 0 := by omega
        simp [hmin2]

/-- The response `renderJSONErrorResp` writes, spelled out. -/
theorem renderJSONErrorResp_eq (st : Nat) (e : Err) :
    Main.renderJSONErrorResp st e =
      ⟨st, "application/json", "\x7b\"error\":" ++ Json.quote e.Error ++ "\x7d"⟩ := by
  have hq : Json.quote "error" = "\"error\"" := by decide
  simp only [Main.renderJSONErrorResp, Main.Marshal, hq, Main.Response.mk.injEq, true_and]
  apply String.ext
  simp

/-! ## The repository: `CreateOrUpdateUser`, `getNewUserID`, `FindUserByID` -/

/-- Claim C1. For every store, every script of transport faults and every record
with `id > 0` whose key `user:<id>` is absent from the store,
`CreateOrUpdateUser` returns `ErrNoUserFound`, and the store (every key, so all
user records and the id counter) and the caller's record are as before. -/
theorem C1_update_absent_key_ErrNoUserFound (conn : Conn) (user : V1.User)
    (hid : user.ID > 0)
    (habsent : Assoc.get conn.db ("user:" ++ Strconv.Itoa user.ID) = none) :
    (V1.CreateOrUpdateUser conn user).1 = some Err.ErrNoUserFound ∧
      (V1.CreateOrUpdateUser conn user).2.1 = user ∧
      (V1.CreateOrUpdateUser conn user).2.2.db = conn.db := by
  unfold V1.CreateOrUpdateUser
  rw [if_pos hid]
  unfold Conn.EXISTS
  cases hf : conn.nextFault with
  | some msg => simp [Conn.sent]
  | none => simp [habsent, Conn.sent]

/-- Claim C1 at the store of `loadInitData` and a record with the unknown id 4. -/
theorem C1_update_absent_key_witness :
    (V1.CreateOrUpdateUser ⟨initStore, []⟩ ⟨4, "Doe", 33, "Vancouver"⟩).1
        = some Err.ErrNoUserFound ∧
      (V1.CreateOrUpdateUser ⟨initStore, []⟩ ⟨4, "Doe", 33, "Vancouver"⟩).2.1
        = ⟨4, "Doe", 33, "Vancouver"⟩ ∧
      (V1.CreateOrUpdateUser ⟨initStore, []⟩ ⟨4, "Doe", 33, "Vancouver"⟩).2.2.db = initStore :=
  C1_update_absent_key_ErrNoUserFound ⟨initStore, []⟩ ⟨4, "Doe", 33, "Vancouver"⟩
    (by decide) (by decide)

/-- Claim C2. Starting from the empty store with no transport faults, for every
sequence of `CreateOrUpdateUser` calls: the ids assigned by the create calls
(`id <= 0`) are strictly increasing in call order, the first create is assigned
id 1, and every create call is assigned an id (as long as the number of creates
fits the 64-bit counter).  In `getNewUserID` the counter is set to 1 when
absent, and is otherwise incremented and returned. -/
theorem C2_assigned_ids_increase_from_one (us : List V1.User) :
    (assignedIDs ⟨[], []⟩ us).Pairwise (· < ·) ∧
      (numCreates us ≠ 0 → (assignedIDs ⟨[], []⟩ us).head? = some 1) ∧
      (numCreates us ≤ Strconv.maxInt64 → (assignedIDs ⟨[], []⟩ us).length = numCreates us) ∧
      (∀ db, Assoc.get db "userIncrID" = none →
        (V1.getNewUserID ⟨db, []⟩).1 = .ok 1 ∧
          Assoc.get (V1.getNewUserID ⟨db, []⟩).2.db "userIncrID" = some (Value.str "1")) ∧
      (∀ db (n : Int), Strconv.IsInt64 n → n + 1 ≤ (Strconv.maxInt64 : Int) →
        Assoc.get db "userIncrID" = some (Value.str (Strconv.Itoa n)) →
        (V1.getNewUserID ⟨db, []⟩).1 = .ok (n + 1)) := by
  have hchar := assignedIDs_reached us ⟨[], []⟩ 0 reached_empty
  simp only [Nat.zero_add, Nat.sub_zero] at hchar
  refine ⟨?_, ?_, ?_, ?_, ?_⟩
  · rw [hchar, List.pairwise_map]
    exact (List.pairwise_lt_range' 1 _).imp (fun h => by exact_mod_cast h)
  · intro hne
    rw [hchar, List.head?_map, List.head?_range']
    have : ¬ min (numCreates us) Strconv.maxInt64 = 0 := by
      have : 0 < Strconv.maxInt64 := by decide
      omega
    simp [this]
  · intro hle
    rw [hchar, List.length_map, List.length_range']
    omega
  · intro db hc
    have hE : Conn.EXISTS ⟨db, []⟩ "userIncrID" = (.ok 0, Conn.sent ⟨db, []⟩) := by
      simp [Conn.EXISTS, Conn.nextFault, hc]
    have hI : Strconv.Itoa 1 = "1" := by decide
    unfold V1.getNewUserID
    simp only [hE, if_true, Conn.SET, Conn.nextFault, Conn.sent, List.tail_nil, List.head?_nil,
      Option.join, hI]
    exact ⟨rfl, Assoc.get_put_same _ _ _⟩
  · intro db n hn hle hc
    have hE : Conn.EXISTS ⟨db, []⟩ "userIncrID" = (.ok 1, Conn.sent ⟨db, []⟩) := by
      simp [Conn.EXISTS, Conn.nextFault, hc]
    have h10 : ¬ ((1 : Int) = 0) := by decide
    have hA := Strconv.Atoi_Itoa n hn
    unfold V1.getNewUserID
    simp only [hE, h10, if_false, Conn.INCR, Conn.nextFault, Conn.sent, List.tail_nil,
      List.head?_nil, Option.join, hc, hA, hle, if_true]
    rfl

/-- Claim C2 on a create, an update and a second create. -/
theorem C2_assigned_ids_witness :
    (assignedIDs ⟨[], []⟩
      [⟨0, "Doe", 33, "Vancouver"⟩, ⟨1, "John", 31, "New York"⟩, ⟨0, "Doe", 33, "Vancouver"⟩]).head?
        = some 1 ∧
      (assignedIDs ⟨[], []⟩
        [⟨0, "Doe", 33, "Vancouver"⟩, ⟨1, "John", 31, "New York"⟩,
          ⟨0, "Doe", 33, "Vancouver"⟩]).length = 2 :=
  ⟨(C2_assigned_ids_increase_from_one
      [⟨0, "Doe", 33, "Vancouver"⟩, ⟨1, "John", 31, "New York"⟩,
        ⟨0, "Doe", 33, "Vancouver"⟩]).2.1 (by decide),
   (C2_assigned_ids_increase_from_one
      [⟨0, "Doe", 33, "Vancouver"⟩, ⟨1, "John", 31, "New York"⟩,
        ⟨0, "Doe", 33, "Vancouver"⟩]).2.2.1 (by decide)⟩

/-- Claim C3. If `CreateOrUpdateUser` succeeds on a record (whose integer fields
are Go `int` values), on either path and from any store, then `FindUserByID`
with the resulting id, its command reaching the store, succeeds and returns
exactly the record the caller holds after the write: same id, name, age and
city. -/
theorem C3_write_then_read_round_trip (conn conn' : Conn) (u u' : V1.User)
    (hu : u.WellTyped)
    (hok : V1.CreateOrUpdateUser conn u = (none, u', conn'))
    (hf : conn'.nextFault = none) :
    (V1.FindUserByID conn' u'.ID).1 = .ok u' := by
  obtain ⟨⟨c, h0, hc⟩, hname, hage, hcity, hidcase⟩ := CreateOrUpdateUser_ok _ _ _ _ hok
  have hwt : u'.WellTyped := by
    refine ⟨?_, hage ▸ hu.2⟩
    by_cases hid : u.ID > 0
    · rw [if_pos hid] at hidcase; rw [hidcase]; exact hu.1
    · rw [if_neg hid] at hidcase; exact hidcase
  obtain ⟨hi, hn, ha, hci⟩ := holds_hmset_AddFlat h0 u'
  have hget : Assoc.get conn'.db ("user:" ++ Strconv.Itoa u'.ID)
      = some (Value.hash (hmset h0 (V1.AddFlat u'))) := by
    rw [hc]; exact Assoc.get_put_same _ _ _
  have hfields : FieldsOf u' (hmset h0 (V1.AddFlat u')) :=
    fun e he => ⟨hi.2 e he, hn.2 e he, ha.2 e he, hci.2 e he⟩
  have hlen : ¬ (hmset h0 (V1.AddFlat u')).length = 0 := by
    intro hz
    have hnil := List.length_eq_zero.1 hz
    have := hi.1
    rw [hnil] at this
    simp [Assoc.get] at this
  unfold V1.FindUserByID Conn.HGETALL
  simp only [V1.userKeyPrefix, hf, hget, hlen, if_false]
  rw [ScanStruct_fieldsOf u' hwt _ _ hfields]
  simp [hi.1, hn.1, ha.1, hci.1]

/-- Claim C3 on the first creation in the empty store. -/
theorem C3_write_then_read_round_trip_witness :
    (V1.FindUserByID
      ⟨[("userIncrID", Value.str "1"),
        ("user:1", Value.hash [("id", "1"), ("name", "Doe"), ("age", "33"),
          ("city", "Vancouver")])], []⟩ 1).1 = .ok ⟨1, "Doe", 33, "Vancouver"⟩ :=
  C3_write_then_read_round_trip ⟨[], []⟩
    ⟨[("userIncrID", Value.str "1"),
      ("user:1", Value.hash [("id", "1"), ("name", "Doe"), ("age", "33"),
        ("city", "Vancouver")])], []⟩
    ⟨0, "Doe", 33, "Vancouver"⟩ ⟨1, "Doe", 33, "Vancouver"⟩ (by decide) (by decide) (by decide)

/-- Claim C4. `FindUserByID` returns a record only when the key `user:<id>` holds
a non-empty hash (whatever the transport does).  When the command reaches the
store: an absent key gives `ErrNoUserFound`, and a key holding a value that is
not a hash gives the store's wrong-type error, which is not `ErrNoUserFound`. -/
theorem C4_FindUserByID_needs_nonempty_hash (conn : Conn) (id : Int) :
    (∀ u, (V1.FindUserByID conn id).1 = .ok u →
        ∃ h, Assoc.get conn.db ("user:" ++ Strconv.Itoa id) = some (Value.hash h) ∧ h ≠ []) ∧
      (conn.nextFault = none → Assoc.get conn.db ("user:" ++ Strconv.Itoa id) = none →
        (V1.FindUserByID conn id).1 = .error Err.ErrNoUserFound) ∧
      (conn.nextFault = none → ∀ v, Assoc.get conn.db ("user:" ++ Strconv.Itoa id) = some v →
        (∀ h, v ≠ Value.hash h) →
        (V1.FindUserByID conn id).1 = .error (Err.redis wrongType) ∧
          Err.redis wrongType ≠ Err.ErrNoUserFound) := by
  refine ⟨?_, ?_, ?_⟩
  · intro u hu
    unfold V1.FindUserByID Conn.HGETALL at hu
    simp only [V1.userKeyPrefix] at hu
    cases hf : conn.nextFault with
    | some msg => simp [hf] at hu
    | none =>
      cases hg : Assoc.get conn.db ("user:" ++ Strconv.Itoa id) with
      | none => simp [hf, hg] at hu
      | some v =>
        cases v with
        | str s => simp [hf, hg] at hu
        | list l => simp [hf, hg] at hu
        | hash h =>
          refine ⟨h, rfl, ?_⟩
          rintro rfl
          simp [hf, hg] at hu
  · intro hf hg
    unfold V1.FindUserByID Conn.HGETALL
    simp [V1.userKeyPrefix, hf, hg]
  · intro hf v hg hv
    refine ⟨?_, by simp⟩
    unfold V1.FindUserByID Conn.HGETALL
    cases v with
    | str s => simp [V1.userKeyPrefix, hf, hg]
    | list l => simp [V1.userKeyPrefix, hf, hg]
    | hash h => exact absurd rfl (hv h)

/-- Claim C4 on an absent key and on a key holding a plain string. -/
theorem C4_FindUserByID_witness :
    (V1.FindUserByID ⟨initStore, []⟩ 4).1 = .error Err.ErrNoUserFound ∧
      ((V1.FindUserByID ⟨[("user:1", Value.str "1")], []⟩ 1).1 = .error (Err.redis wrongType) ∧
        Err.redis wrongType ≠ Err.ErrNoUserFound) :=
  ⟨(C4_FindUserByID_needs_nonempty_hash ⟨initStore, []⟩ 4).2.1 (by decide) (by decide),
   (C4_FindUserByID_needs_nonempty_hash ⟨[("user:1", Value.str "1")], []⟩ 1).2.2 (by decide)
      (Value.str "1") (by decide) (by intro h; simp)⟩

/-! ## The handlers -/

/-- Claim C5. The code at the failing input, the store holding exactly `user:1`
and `user:2` in that order: `getUsers` answers 200, and the members of each
object carry the JSON tags of `User` (`id`, `name`, `age`, `city`), so the body
is not the one with the members `ID`, `Name`, `Age`, `City`. -/
theorem C5_getUsers_body_uses_json_tags :
    (Main.getUsers ⟨initStore, []⟩).1 =
        ⟨200, "application/json", "[\x7b\"id\":1,\"name\":\"John\",\"age\":31,\"city\":\"New York\"\x7d,\x7b\"id\":2,\"name\":\"Doe\",\"age\":22,\"city\":\"Vancouver\"\x7d]"⟩ ∧
      (Main.getUsers ⟨initStore, []⟩).1.body ≠
        "[\x7b\"ID\":1,\"Name\":\"John\",\"Age\":31,\"City\":\"New York\"\x7d,\x7b\"ID\":2,\"Name\":\"Doe\",\"Age\":22,\"City\":\"Vancouver\"\x7d]" := by
  decide

/-- Claim C6 as stated fails. On the empty store `ListAllUsers` returns the nil
slice without error and `getUsers` answers 200, but the body is not `[]`. -/
theorem C6_empty_store_body_is_not_empty_array :
    ¬ ((V1.ListAllUsers ⟨[], []⟩).1 = .ok none ∧
        (Main.getUsers ⟨[], []⟩).1.status = 200 ∧
        (Main.getUsers ⟨[], []⟩).1.body = "[]") := by
  decide

/-- Claim C6 as amended. When the KEYS command reaches a store in which no key
matches the user-key pattern, `ListAllUsers` returns the nil slice and no
error, and `getUsers` answers 200 with the body `null`. -/
theorem C6_no_user_keys_nil_and_null (conn : Conn) (hf : conn.nextFault = none)
    (hkeys : ∀ e ∈ conn.db, matchesUserIDPattern e.1 = false) :
    (V1.ListAllUsers conn).1 = .ok none ∧
      (Main.getUsers conn).1 = ⟨200, "application/json", "null"⟩ := by
  have hnil : (conn.db.map (fun e => e.1)).filter
      (fun k => globMatch (globTokens (V1.userKeyPrefix ++ "[0-9]").data none) k.data) = [] := by
    rw [List.filter_eq_nil_iff]
    intro k hk
    obtain ⟨e, he, rfl⟩ := List.mem_map.1 hk
    have hno := hkeys e he
    simp only [matchesUserIDPattern] at hno
    simp only [hno]
    simp
  have hlist : V1.ListAllUsers conn = (.ok none, conn.sent) := by
    unfold V1.ListAllUsers Conn.KEYS
    simp only [hf, hnil, V1.listLoop]
  refine ⟨by rw [hlist], ?_⟩
  unfold Main.getUsers
  rw [hlist]
  rfl

/-- Claim C6 as amended, on a store holding only the id counter. -/
theorem C6_no_user_keys_witness :
    (V1.ListAllUsers ⟨[("userIncrID", Value.str "12")], []⟩).1 = .ok none ∧
      (Main.getUsers ⟨[("userIncrID", Value.str "12")], []⟩).1
        = ⟨200, "application/json", "null"⟩ :=
  C6_no_user_keys_nil_and_null ⟨[("userIncrID", Value.str "12")], []⟩ (by decide) (by decide)

/-- Claim C7. When the body of `POST /users` decodes to a payload and
`CreateOrUpdateUser` succeeds, the answer is a function of the id in the
request alone: 200 with `user updated successfully` when it is positive, 201
with `user created successfully` otherwise; so the answer is the 200 one if and
only if the request id is positive, whatever id the repository assigned. -/
theorem C7_status_chosen_from_request_id (conn : Conn) (user : Main.User)
    (hok : (V1.CreateOrUpdateUser conn ⟨user.ID, user.Name, user.Age, user.City⟩).1 = none) :
    (Main.createOrUpdateUser conn (.ok user)).1 =
        (if user.ID > 0 then
          ⟨200, "application/json", "\x7b\"message\":\"user updated successfully\"\x7d"⟩
        else ⟨201, "application/json", "\x7b\"message\":\"user created successfully\"\x7d"⟩) ∧
      ((Main.createOrUpdateUser conn (.ok user)).1 =
          ⟨200, "application/json", "\x7b\"message\":\"user updated successfully\"\x7d"⟩
        ↔ user.ID > 0) := by
  have h1 : (Main.createOrUpdateUser conn (.ok user)).1 =
      (if user.ID > 0 then
        (⟨200, "application/json", "\x7b\"message\":\"user updated successfully\"\x7d"⟩ :
          Main.Response)
      else ⟨201, "application/json", "\x7b\"message\":\"user created successfully\"\x7d"⟩) := by
    obtain ⟨u, c, hres⟩ : ∃ u c,
        V1.CreateOrUpdateUser conn ⟨user.ID, user.Name, user.Age, user.City⟩ = (none, u, c) := by
      rcases hres : V1.CreateOrUpdateUser conn ⟨user.ID, user.Name, user.Age, user.City⟩
        with ⟨err, u, c⟩
      rw [hres] at hok
      exact ⟨u, c, by rw [show err = none from hok]⟩
    unfold Main.createOrUpdateUser
    simp only [hres]
    by_cases hid : user.ID > 0
    · simp only [hid, if_true]; decide
    · simp only [hid, if_false]; decide
  refine ⟨h1, ?_⟩
  rw [h1]
  by_cases hid : user.ID > 0
  · simp [hid]
  · simp only [hid, if_false, iff_false]; decide

/-- Claim C7 on a creation in the empty store. -/
theorem C7_status_chosen_from_request_id_witness :
    (Main.createOrUpdateUser ⟨[], []⟩ (.ok ⟨0, "John", 31, "New York"⟩)).1 =
        (if (0 : Int) > 0 then
          ⟨200, "application/json", "\x7b\"message\":\"user updated successfully\"\x7d"⟩
        else ⟨201, "application/json", "\x7b\"message\":\"user created successfully\"\x7d"⟩) ∧
      ((Main.createOrUpdateUser ⟨[], []⟩ (.ok ⟨0, "John", 31, "New York"⟩)).1 =
          ⟨200, "application/json", "\x7b\"message\":\"user updated successfully\"\x7d"⟩
        ↔ (0 : Int) > 0) :=
  C7_status_chosen_from_request_id ⟨[], []⟩ ⟨0, "John", 31, "New York"⟩ (by decide)

/-- Claim C8 as stated fails. With `user:1` holding a plain string,
`GET /user/1` answers 500 and the body is the JSON object carrying the store's
error text. -/
theorem C8_status_500_has_error_body :
    (Main.getUserByID ⟨[("user:1", Value.str "INVALID DATA")], []⟩ "1").1.status = 500 ∧
      (Main.getUserByID ⟨[("user:1", Value.str "INVALID DATA")], []⟩ "1").1.body =
        "\x7b\"error\":\"WRONGTYPE Operation against a key holding the wrong kind of value\"\x7d" ∧
      (Main.getUserByID ⟨[("user:1", Value.str "INVALID DATA")], []⟩ "1").1.body ≠ "" := by
  decide

/-- Claim C8 as amended. In each of the three handlers a repository error that is
mapped to 500 is answered like the 400 and 404 cases, through
`renderJSONErrorResp`: the body is the JSON object whose member `error` is the
text of that error. -/
theorem C8_status_500_body_is_error_text :
    (∀ conn e, (V1.ListAllUsers conn).1 = .error e →
        (Main.getUsers conn).1 =
          ⟨500, "application/json", "\x7b\"error\":" ++ Json.quote e.Error ++ "\x7d"⟩) ∧
      (∀ conn (user : Main.User) e,
        (V1.CreateOrUpdateUser conn ⟨user.ID, user.Name, user.Age, user.City⟩).1 = some e →
        e ≠ Err.ErrNoUserFound →
        (Main.createOrUpdateUser conn (.ok user)).1 =
          ⟨500, "application/json", "\x7b\"error\":" ++ Json.quote e.Error ++ "\x7d"⟩) ∧
      (∀ conn id userID e, Strconv.Atoi id = .ok userID →
        (V1.FindUserByID conn userID).1 = .error e → e ≠ Err.ErrNoUserFound →
        (Main.getUserByID conn id).1 =
          ⟨500, "application/json", "\x7b\"error\":" ++ Json.quote e.Error ++ "\x7d"⟩) := by
  refine ⟨?_, ?_, ?_⟩
  · intro conn e he
    rcases hres : V1.ListAllUsers conn with ⟨r, c⟩
    rw [hres] at he
    simp only at he
    subst he
    unfold Main.getUsers
    simp only [hres, renderJSONErrorResp_eq, Main.StatusInternalServerError]
  · intro conn user e he hne
    rcases hres : V1.CreateOrUpdateUser conn ⟨user.ID, user.Name, user.Age, user.City⟩
      with ⟨r, u, c⟩
    rw [hres] at he
    simp only at he
    subst he
    unfold Main.createOrUpdateUser
    simp only [hres, hne, if_false, renderJSONErrorResp_eq, Main.StatusInternalServerError]
  · intro conn id userID e hid he hne
    rcases hres : V1.FindUserByID conn userID with ⟨r, c⟩
    rw [hres] at he
    simp only at he
    subst he
    unfold Main.getUserByID
    simp only [hid, hres, hne, if_false, renderJSONErrorResp_eq, Main.StatusInternalServerError]

/-- Claim C8 as amended, on `GET /user/1` with `user:1` holding a plain string. -/
theorem C8_status_500_body_witness :
    (Main.getUserByID ⟨[("user:1", Value.str "INVALID DATA")], []⟩ "1").1 =
      ⟨500, "application/json",
        "\x7b\"error\":" ++ Json.quote (Err.redis wrongType).Error ++ "\x7d"⟩ :=
  C8_status_500_body_is_error_text.2.2 ⟨[("user:1", Value.str "INVALID DATA")], []⟩ "1" 1
    (Err.redis wrongType) (by decide) (by decide) (by decide)

/-! ## Error propagation and request validation -/

/-- Claim C9. The code at the failing input: the key `user:1` exists, the EXISTS
command fails with a transport error, and `CreateOrUpdateUser` reports
`ErrNoUserFound` instead of that error; the sibling `getNewUserID` returns the
error of its own EXISTS. -/
theorem C9_exists_error_reported_as_not_found :
    (Conn.EXISTS ⟨initStore, [some "connection reset by peer"]⟩ "user:1").1
        = .error (Err.io "connection reset by peer") ∧
      (V1.CreateOrUpdateUser ⟨initStore, [some "connection reset by peer"]⟩
        ⟨1, "Doe", 33, "Vancouver"⟩).1 = some Err.ErrNoUserFound ∧
      (V1.getNewUserID ⟨initStore, [some "connection reset by peer"]⟩).1
        = .error (Err.io "connection reset by peer") := by
  decide

/-- Claim C10 as stated fails. The id `9223372036854775808` is a non-empty run
of decimal digits, so the path-segment route accepts it, and `getUserByID`
answers 400 with `invalid userID`. -/
theorem C10_digits_beyond_int_range_give_400 :
    ("9223372036854775808".data ≠ [] ∧
        "9223372036854775808".data.all Strconv.isDigit = true) ∧
      (Main.getUserByID ⟨initStore, []⟩ "9223372036854775808").1 =
        ⟨400, "application/json", "\x7b\"error\":\"invalid userID\"\x7d"⟩ := by
  decide

/-- Claim C10 as amended. For every id that is a non-empty run of decimal digits
whose value fits a 64-bit `int`, `getUserByID` answers 200, 404 or 500, never
400; and for every id string whatsoever the answer is 400 exactly when `Atoi`
rejects it, the response then being 400 with `invalid userID`. -/
theorem C10_status_400_iff_Atoi_fails (conn : Conn) (id : String) :
    (id.data ≠ [] → id.data.all Strconv.isDigit = true →
        Strconv.digitsValue id.data ≤ Strconv.maxInt64 →
        (Main.getUserByID conn id).1.status = 200 ∨
          (Main.getUserByID conn id).1.status = 404 ∨
          (Main.getUserByID conn id).1.status = 500) ∧
      ((Main.getUserByID conn id).1.status = 400 ↔ ∃ k, Strconv.Atoi id = .error k) ∧
      ((Main.getUserByID conn id).1.status = 400 →
        (Main.getUserByID conn id).1 =
          ⟨400, "application/json", "\x7b\"error\":\"invalid userID\"\x7d"⟩) := by
  have hstat : ∀ userID, Strconv.Atoi id = .ok userID →
      (Main.getUserByID conn id).1.status = 200 ∨
        (Main.getUserByID conn id).1.status = 404 ∨
        (Main.getUserByID conn id).1.status = 500 := by
    intro userID hid
    unfold Main.getUserByID
    simp only [hid]
    rcases hres : V1.FindUserByID conn userID with ⟨r, c⟩
    cases r with
    | error e =>
      by_cases he : e = Err.ErrNoUserFound
      · simp [he, Main.renderJSONErrorResp, Main.StatusNotFound]
      · simp [he, Main.renderJSONErrorResp, Main.StatusInternalServerError]
    | ok u => simp [Main.renderJSONResp, Main.StatusOK]
  have hbad : ∀ k, Strconv.Atoi id = .error k →
      (Main.getUserByID conn id).1 =
        ⟨400, "application/json", "\x7b\"error\":\"invalid userID\"\x7d"⟩ := by
    intro k hid
    unfold Main.getUserByID
    simp only [hid]
    decide
  refine ⟨?_, ?_, ?_⟩
  · intro hne hall hval
    have hid : Strconv.Atoi id = .ok (Strconv.digitsValue id.data : Int) := by
      have := Strconv.Atoi_digits id.data hne hall
      rwa [if_pos hval] at this
    exact hstat _ hid
  · constructor
    · intro h400
      cases hid : Strconv.Atoi id with
      | error k => exact ⟨k, rfl⟩
      | ok userID => rcases hstat userID hid with h | h | h <;> omega
    · rintro ⟨k, hk⟩
      rw [hbad k hk]
  · intro h400
    cases hid : Strconv.Atoi id with
    | error k => exact hbad k hid
    | ok userID => rcases hstat userID hid with h | h | h <;> omega

/-- Claim C10 as amended, on `GET /user/124`. -/
theorem C10_status_400_iff_Atoi_fails_witness :
    (Main.getUserByID ⟨initStore, []⟩ "124").1.status = 200 ∨
      (Main.getUserByID ⟨initStore, []⟩ "124").1.status = 404 ∨
      (Main.getUserByID ⟨initStore, []⟩ "124").1.status = 500 :=
  (C10_status_400_iff_Atoi_fails ⟨initStore, []⟩ "124").1 (by decide) (by decide) (by decide)

/-! ## What a failed call leaves in the store -/

theorem EXISTS_db (c : Conn) (key : String) : (c.EXISTS key).2.db = c.db := by
  unfold Conn.EXISTS
  cases c.nextFault <;> rfl

theorem HMSET_error_db (c : Conn) (key : String) (pairs : List (String × String)) (e : Err)
    (h : (c.HMSET key pairs).1 = some e) : (c.HMSET key pairs).2.db = c.db := by
  unfold Conn.HMSET at h ⊢
  cases hf : c.nextFault with
  | some msg => rfl
  | none =>
    simp only [hf] at h ⊢
    cases hg : Assoc.get c.db key with
    | none => simp [hg] at h
    | some v =>
      cases v with
      | hash fields => simp [hg] at h
      | str t => rfl
      | list items => rfl

/-- The effect of `getNewUserID` on the store: only the counter key can change,
nothing changes when it fails, and when it returns an id the counter holds the
text of that id. -/
theorem getNewUserID_frame (conn : Conn) :
    (∀ key, key ≠ "userIncrID" →
        Assoc.get (V1.getNewUserID conn).2.db key = Assoc.get conn.db key) ∧
      (∀ e, (V1.getNewUserID conn).1 = .error e → (V1.getNewUserID conn).2.db = conn.db) ∧
      (∀ id, (V1.getNewUserID conn).1 = .ok id →
        Assoc.get (V1.getNewUserID conn).2.db "userIncrID"
          = some (Value.str (Strconv.Itoa id))) := by
  have hI1 : Strconv.Itoa 1 = "1" := by decide
  unfold V1.getNewUserID
  simp only
  unfold Conn.EXISTS
  cases hf : conn.nextFault with
  | some msg =>
    simp only
    exact ⟨fun _ _ => rfl, fun _ _ => rfl, fun id h => by simp at h⟩
  | none =>
    simp only
    by_cases hex : (if (Assoc.get conn.db "userIncrID").isSome = true then (1 : Int) else 0) = 0
    · simp only [hex, if_true]
      unfold Conn.SET
      cases hf1 : conn.sent.nextFault with
      | some msg =>
        simp only
        exact ⟨fun _ _ => rfl, fun _ _ => rfl, fun id h => by simp at h⟩
      | none =>
        simp only
        refine ⟨fun key hne => ?_, fun e h => by simp at h, fun id h => ?_⟩
        · exact Assoc.get_put_other _ _ _ _ hne
        · simp only [Except.ok.injEq] at h
          subst h
          exact Assoc.get_put_same _ _ _
    · simp only [hex, if_false]
      unfold Conn.INCR
      cases hf1 : conn.sent.nextFault with
      | some msg =>
        simp only
        exact ⟨fun _ _ => rfl, fun _ _ => rfl, fun id h => by simp at h⟩
      | none =>
        simp only
        cases hg : Assoc.get conn.sent.db "userIncrID" with
        | none =>
          simp only
          refine ⟨fun key hne => ?_, fun e h => by simp at h, fun id h => ?_⟩
          · exact Assoc.get_put_other _ _ _ _ hne
          · simp only [Except.ok.injEq] at h
            subst h
            rw [hI1]
            exact Assoc.get_put_same _ _ _
        | some v =>
          cases v with
          | hash fields =>
            simp only
            exact ⟨fun _ _ => rfl, fun _ _ => rfl, fun id h => by simp at h⟩
          | list items =>
            simp only
            exact ⟨fun _ _ => rfl, fun _ _ => rfl, fun id h => by simp at h⟩
          | str t =>
            simp only
            cases hA : Strconv.Atoi t with
            | error k =>
              simp only
              exact ⟨fun _ _ => rfl, fun _ _ => rfl, fun id h => by simp at h⟩
            | ok v =>
              simp only
              by_cases hcanon : Strconv.Itoa v = t
              · by_cases hle : v + 1 ≤ (Strconv.maxInt64 : Int)
                · simp only [hcanon, hle, if_true]
                  refine ⟨fun key hne => ?_, fun e h => by simp at h, fun id h => ?_⟩
                  · exact Assoc.get_put_other _ _ _ _ hne
                  · simp only [Except.ok.injEq] at h
                    subst h
                    exact Assoc.get_put_same _ _ _
                · simp only [hcanon, hle, if_true, if_false]
                  exact ⟨fun _ _ => rfl, fun _ _ => rfl, fun id h => by simp at h⟩
              · simp only [hcanon, if_false]
                exact ⟨fun _ _ => rfl, fun _ _ => rfl, fun id h => by simp at h⟩

/-- The store after a failed `CreateOrUpdateUser`: the store as it was on the
update path, the store as `getNewUserID` left it on the create path. -/
theorem CreateOrUpdateUser_error_db (conn : Conn) (user : V1.User) (e : Err)
    (herr : (V1.CreateOrUpdateUser conn user).1 = some e) :
    (V1.CreateOrUpdateUser conn user).2.2.db =
      if user.ID > 0 then conn.db else (V1.getNewUserID conn).2.db := by
  unfold V1.CreateOrUpdateUser at herr ⊢
  by_cases hid : user.ID > 0
  · simp only [hid, if_true] at herr ⊢
    have hdb := EXISTS_db conn ("user:" ++ Strconv.Itoa user.ID)
    rcases hE : conn.EXISTS ("user:" ++ Strconv.Itoa user.ID) with ⟨reply, c0⟩
    rw [hE] at hdb
    simp only [hE] at herr ⊢
    split
    · exact hdb
    · rename_i hex
      simp only [hex, if_false] at herr
      rcases hH : c0.HMSET ("user:" ++ Strconv.Itoa user.ID) (V1.AddFlat user) with ⟨eo, c1⟩
      simp only [hH] at herr ⊢
      cases eo with
      | none => simp at herr
      | some e1 =>
        have := HMSET_error_db c0 ("user:" ++ Strconv.Itoa user.ID) (V1.AddFlat user) e1
          (by rw [hH])
        rw [hH] at this
        simp only
        rw [this, hdb]
  · simp only [hid, if_false] at herr ⊢
    rcases hN : V1.getNewUserID conn with ⟨r, c0⟩
    simp only [hN] at herr ⊢
    cases r with
    | error e1 => rfl
    | ok id =>
      simp only at herr ⊢
      rcases hH : c0.HMSET ("user:" ++ Strconv.Itoa id) (V1.AddFlat { user with ID := id })
        with ⟨eo, c1⟩
      simp only [hH] at herr ⊢
      cases eo with
      | none => simp at herr
      | some e1 =>
        have := HMSET_error_db c0 ("user:" ++ Strconv.Itoa id)
          (V1.AddFlat { user with ID := id }) e1 (by rw [hH])
        rw [hH] at this
        exact this

/-! ## Partial success and id uniqueness -/

/-- Claim C11 as stated fails. With `user:1` holding a plain string and no
counter, a create call allocates id 1, sets the counter, fails on the hash
write with the wrong-type error, and returns that error: the store is not as
before, it has gained the counter.  The same happens on the empty store when
the transport fails at the third command, the hash write. -/
theorem C11_failed_create_leaves_counter_set :
    ((V1.CreateOrUpdateUser ⟨[("user:1", Value.str "1")], []⟩ ⟨0, "Doe", 33, "Vancouver"⟩).1
        = some (Err.redis wrongType) ∧
      (V1.CreateOrUpdateUser ⟨[("user:1", Value.str "1")], []⟩ ⟨0, "Doe", 33, "Vancouver"⟩).2.2.db
        = [("user:1", Value.str "1"), ("userIncrID", Value.str "1")] ∧
      (V1.CreateOrUpdateUser ⟨[("user:1", Value.str "1")], []⟩ ⟨0, "Doe", 33, "Vancouver"⟩).2.2.db
        ≠ [("user:1", Value.str "1")]) ∧
    ((V1.CreateOrUpdateUser ⟨[], [none, none, some "broken pipe"]⟩
        ⟨0, "Doe", 33, "Vancouver"⟩).1 = some (Err.io "broken pipe") ∧
      (V1.CreateOrUpdateUser ⟨[], [none, none, some "broken pipe"]⟩
        ⟨0, "Doe", 33, "Vancouver"⟩).2.2.db = [("userIncrID", Value.str "1")]) := by
  decide

/-- Claim C11 as amended. If `CreateOrUpdateUser` returns an error (a failing
command leaving the store untouched), then every key other than the id counter,
so every user record, reads as before the call; the whole store is as before on
the update path and whenever the id allocation itself failed; and on the create
path, when an id was allocated and the hash write failed, the counter holds
the text of the allocated id. -/
theorem C11_error_changes_at_most_the_counter (conn : Conn) (user : V1.User) (e : Err)
    (herr : (V1.CreateOrUpdateUser conn user).1 = some e) :
    (∀ key, key ≠ "userIncrID" →
        Assoc.get (V1.CreateOrUpdateUser conn user).2.2.db key = Assoc.get conn.db key) ∧
      (user.ID > 0 → (V1.CreateOrUpdateUser conn user).2.2.db = conn.db) ∧
      (∀ e1, (V1.getNewUserID conn).1 = .error e1 →
        (V1.CreateOrUpdateUser conn user).2.2.db = conn.db) ∧
      (¬ user.ID > 0 → ∀ id, (V1.getNewUserID conn).1 = .ok id →
        Assoc.get (V1.CreateOrUpdateUser conn user).2.2.db "userIncrID"
          = some (Value.str (Strconv.Itoa id))) := by
  have hdb := CreateOrUpdateUser_error_db conn user e herr
  obtain ⟨hframe, hfail, hcount⟩ := getNewUserID_frame conn
  refine ⟨?_, ?_, ?_, ?_⟩
  · intro key hne
    rw [hdb]
    by_cases hid : user.ID > 0
    · rw [if_pos hid]
    · rw [if_neg hid]; exact hframe key hne
  · intro hid
    rw [hdb, if_pos hid]
  · intro e1 he1
    rw [hdb]
    by_cases hid : user.ID > 0
    · rw [if_pos hid]
    · rw [if_neg hid]; exact hfail e1 he1
  · intro hid id hok
    rw [hdb, if_neg hid]
    exact hcount id hok

/-- Claim C11 as amended, on the create call that finds `user:1` holding a plain
string: the key `user:1` reads as before and the counter holds the id 1. -/
theorem C11_error_changes_at_most_the_counter_witness :
    Assoc.get (V1.CreateOrUpdateUser ⟨[("user:1", Value.str "1")], []⟩
        ⟨0, "Doe", 33, "Vancouver"⟩).2.2.db "user:1"
        = Assoc.get [("user:1", Value.str "1")] "user:1" ∧
      Assoc.get (V1.CreateOrUpdateUser ⟨[("user:1", Value.str "1")], []⟩
        ⟨0, "Doe", 33, "Vancouver"⟩).2.2.db "userIncrID"
        = some (Value.str (Strconv.Itoa 1)) :=
  ⟨(C11_error_changes_at_most_the_counter ⟨[("user:1", Value.str "1")], []⟩
      ⟨0, "Doe", 33, "Vancouver"⟩ (Err.redis wrongType) (by decide)).1 "user:1" (by decide),
   (C11_error_changes_at_most_the_counter ⟨[("user:1", Value.str "1")], []⟩
      ⟨0, "Doe", 33, "Vancouver"⟩ (Err.redis wrongType) (by decide)).2.2.2 (by decide) 1
      (by decide)⟩

/-- Claim C12. The code at the failing input, the store `loadInitData` seeds at
start-up (it holds `user:1` and `user:2` and no counter): the first create
call succeeds and is assigned the id 1, the id of a record already stored, and
the record of John at `user:1` is overwritten by the new record. -/
theorem C12_first_create_after_seeding_overwrites_user_1 :
    Main.loadInitData ⟨[], []⟩ = (none, ⟨initStore, []⟩) ∧
      Assoc.get initStore "userIncrID" = none ∧
      (V1.FindUserByID ⟨initStore, []⟩ 1).1 = .ok ⟨1, "John", 31, "New York"⟩ ∧
      (V1.CreateOrUpdateUser ⟨initStore, []⟩ ⟨0, "Doe", 33, "Vancouver"⟩).1 = none ∧
      (V1.CreateOrUpdateUser ⟨initStore, []⟩ ⟨0, "Doe", 33, "Vancouver"⟩).2.1.ID = 1 ∧
      (V1.FindUserByID
        (V1.CreateOrUpdateUser ⟨initStore, []⟩ ⟨0, "Doe", 33, "Vancouver"⟩).2.2 1).1
          = .ok ⟨1, "Doe", 33, "Vancouver"⟩ := by
  decide

end RestApiSample
